import Mathlib

/-
Verification of the CSV import pipeline (app/utils/importer.py) and the
aggregation accessors (app/models/database.py) of the accounting-dashboard
repository, via a shallow embedding.

Modelling conventions:
  * A pandas DataFrame is a `Frame`: a list of column names plus a list of
    rows, each row a list of `Cell`s.  Cells are integers, strings, or the
    missing value `Cell.na` (pandas NA/NaN).
  * `pd.to_numeric(..., errors="coerce")` is modelled by `coerceInt`, which
    parses optionally signed decimal integer strings; non-parsable values
    become `Cell.na`.  (Float literals are outside the modelled value space;
    all claims concern integer data.)
  * File input/output (existence checks, `pd.read_csv`) is outside the
    embedding: `validate_frame` models `CSVImporter.validate_csv` from the
    point where the CSV has been parsed into a frame, and `importCSV` models
    `CSVImporter.import_csv` acting on an explicit storage state (the list of
    rows of the `transactions_denormalized` table).
  * The platform text codecs used by `detect_encoding` are external library
    code and are modelled as a boolean oracle argument.
-/

/-- A pandas cell value: missing (NA/NaN), an integer, or a string. -/
inductive Cell where
  | na : Cell
  | int : Int → Cell
  | str : String → Cell
  deriving DecidableEq

/-- A pandas DataFrame: column names plus rows of cells. -/
structure Frame where
  cols : List String
  rows : List (List Cell)
  deriving DecidableEq

deriving instance DecidableEq for Except

/-- Well-formedness: every row has one cell per column. -/
def Frame.WF (f : Frame) : Prop :=
  ∀ r ∈ f.rows, r.length = f.cols.length

instance (f : Frame) : Decidable f.WF := by
  unfold Frame.WF; infer_instance

/-- The empty frame, `pd.DataFrame()`. -/
def Frame.empty : Frame := ⟨[], []⟩

/-- Boolean membership of a string in a list of strings. -/
def memStr : List String → String → Bool
  | [], _ => false
  | x :: xs, c => if x = c then true else memStr xs c

/-- First index of a column name in a column list (`df.columns.get_loc`). -/
def colIdx : List String → String → Option Nat
  | [], _ => none
  | x :: xs, c => if x = c then some 0 else (colIdx xs c).map (· + 1)

/-- Cell of row `r` in column `c`, given the column list (`row[c]`).
Missing columns and short rows give `Cell.na`; the real code never reads a
column it has not checked for. -/
def cellOf (cols : List String) (r : List Cell) (c : String) : Cell :=
  match colIdx cols c with
  | some i => r.getD i Cell.na
  | none => Cell.na

/-- Lookup in an association list of strings (a Python dict of strings). -/
def lookupStr : List (String × String) → String → Option String
  | [], _ => none
  | (k, v) :: rest, s => if k = s then some v else lookupStr rest s

/-- ASCII whitespace test used by `str.strip()` on the headers that occur. -/
def isSpaceChar (c : Char) : Bool :=
  c = ' ' || c = '\t' || c = '\n' || c = '\r'

/-- Python `str.strip()` (modelled for ASCII whitespace). -/
def strip (s : String) : String :=
  ⟨((s.data.dropWhile isSpaceChar).reverse.dropWhile isSpaceChar).reverse⟩

/-- Python `str.lower()` (ASCII case folding; the canonical names compared
against are ASCII). -/
def lowerStr (s : String) : String :=
  ⟨s.data.map Char.toLower⟩

/-- Join a list of strings with a comma separator (`", ".join(...)`). -/
def joinComma : List String → String
  | [] => ""
  | [x] => x
  | x :: y :: rest => x ++ ", " ++ joinComma (y :: rest)

/-- CSVImporter.REQUIRED_COLUMNS_LONG. -/
def REQUIRED_COLUMNS_LONG : List String :=
  ["year", "month", "segment", "division", "dept_code", "dept_name",
   "customer_code", "customer_name", "industry", "account", "amount"]

/-- CSVImporter.MONTH_COLUMNS. -/
def MONTH_COLUMNS : List String :=
  ["1月", "2月", "3月", "4月", "5月", "6月",
   "7月", "8月", "9月", "10月", "11月", "12月"]

/-- CSVImporter.COLUMN_MAPPING (Japanese header → canonical name). -/
def COLUMN_MAPPING : List (String × String) :=
  [("年度", "year"), ("年", "year"),
   ("セグメント", "segment"), ("開示セグメント名称", "segment"), ("開示セグメント", "segment"),
   ("事業部", "division"), ("事業部名称", "division"), ("事業部名", "division"),
   ("部門コード", "dept_code"),
   ("部門名", "dept_name"), ("部門名称", "dept_name"),
   ("取引先コード", "customer_code"),
   ("取引先名", "customer_name"), ("取引先名称", "customer_name"),
   ("業種", "industry"), ("WITC業種名①", "industry"), ("WITC業種名", "industry"), ("業種名", "industry"),
   ("科目", "account"), ("科目名", "account"), ("科目名称", "account"),
   ("金額", "amount"),
   ("月", "month")]

/-- CSVImporter.IGNORE_COLUMNS. -/
def IGNORE_COLUMNS : List String := ["昇順", "合計", "順序"]

/-- The month-label dictionary `{f"{i}月": i for i in range(1, 13)}` built in
`transform_wide_to_long`. -/
def month_map : List (String × Int) :=
  [("1月", 1), ("2月", 2), ("3月", 3), ("4月", 4), ("5月", 5), ("6月", 6),
   ("7月", 7), ("8月", 8), ("9月", 9), ("10月", 10), ("11月", 11), ("12月", 12)]

/-- Lookup in `month_map`. -/
def lookupMonth : List (String × Int) → String → Option Int
  | [], _ => none
  | (k, v) :: rest, s => if k = s then some v else lookupMonth rest s

/-- `Series.map(month_map)`: strings found in the dictionary map to their
number, everything else (missing keys, non-strings, NA) maps to NA. -/
def mapMonth (c : Cell) : Cell :=
  match c with
  | Cell.str s =>
    match lookupMonth month_map s with
    | some n => Cell.int n
    | none => Cell.na
  | _ => Cell.na

/-- Value of a decimal digit string. -/
def digitsVal (cs : List Char) : Option Nat :=
  if cs.isEmpty then none
  else if cs.all Char.isDigit then
    some (cs.foldl (fun acc c => acc * 10 + (c.toNat - 48)) 0)
  else none

/-- Parse an optionally signed decimal integer, tolerating surrounding
whitespace, as `pd.to_numeric` does on integer-like strings. -/
def parseIntStr (s : String) : Option Int :=
  match (strip s).data with
  | '-' :: rest => (digitsVal rest).map (fun n => -(n : Int))
  | '+' :: rest => (digitsVal rest).map (fun n => (n : Int))
  | cs => (digitsVal cs).map (fun n => (n : Int))

/-- `pd.to_numeric(x, errors="coerce").astype("Int64")` on one cell: integers
stay, parsable strings become integers, everything else becomes NA. -/
def coerceInt : Cell → Cell
  | Cell.int n => Cell.int n
  | Cell.na => Cell.na
  | Cell.str s =>
    match parseIntStr s with
    | some n => Cell.int n
    | none => Cell.na

/-- Set (or append) column `name`, computing each new cell from its row:
models `df[name] = <series computed from df>`.  If the column exists its
values are overwritten in place; otherwise it is appended on the right. -/
def mapSetCol (f : Frame) (name : String) (g : List Cell → Cell) : Frame :=
  match colIdx f.cols name with
  | some i => ⟨f.cols, f.rows.map (fun r => r.set i (g r))⟩
  | none => ⟨f.cols ++ [name], f.rows.map (fun r => r ++ [g r])⟩

/-- `df[name] = pd.to_numeric(df[name], errors="coerce").astype("Int64")`. -/
def coerceCol (f : Frame) (name : String) : Frame :=
  mapSetCol f name (fun r => coerceInt (cellOf f.cols r name))

/-- `df.drop(columns=names)` (for each name present), dropping every column
whose label is in `names`. -/
def dropColumns (f : Frame) (names : List String) : Frame :=
  ⟨f.cols.filter (fun c => !memStr names c),
   f.rows.map (fun r =>
     (f.cols.zip r).filterMap (fun p => if memStr names p.1 then none else some p.2))⟩

/-- CSVImporter._normalize_columns on a single header: strip whitespace; map
via COLUMN_MAPPING; keep month labels and ignored columns; otherwise match a
required canonical name case-insensitively; else keep the stripped header. -/
def normalizeHeader (col : String) : String :=
  let s := strip col
  match lookupStr COLUMN_MAPPING s with
  | some m => m
  | none =>
    if memStr MONTH_COLUMNS s then s
    else if memStr IGNORE_COLUMNS s then s
    else
      let low := lowerStr s
      match REQUIRED_COLUMNS_LONG.find? (fun rc => lowerStr rc = low) with
      | some rc => rc
      | none => s

/-- CSVImporter._normalize_columns: rename every column by `normalizeHeader`
(`df.rename(columns=new_columns)`). -/
def normalize_columns (f : Frame) : Frame :=
  ⟨f.cols.map normalizeHeader, f.rows⟩

/-- The per-column mapping applied inside `detect_format`: strip, then the
static COLUMN_MAPPING lookup only (no case-insensitive canonical matching). -/
def staticMapHeader (col : String) : String :=
  let s := strip col
  match lookupStr COLUMN_MAPPING s with
  | some m => m
  | none => s

/-- CSVImporter.detect_format: at least six month-label columns → "wide";
else a literal "month"/"月" column → "long"; else "month" after the static
header mapping → "long"; else "wide". -/
def detect_format (df : Frame) : String :=
  let columns := df.cols
  let month_cols_found := columns.filter (fun col => memStr MONTH_COLUMNS col)
  if 6 ≤ month_cols_found.length then "wide"
  else if memStr columns "month" || memStr columns "月" then "long"
  else
    let mapped_cols := columns.map staticMapHeader
    if memStr mapped_cols "month" then "long"
    else "wide"

/-- Should an unpivoted row be kept?  `df_long["amount"].notna() &
(df_long["amount"] != 0)`. -/
def keepAmount (c : Cell) : Bool :=
  match c with
  | Cell.na => false
  | Cell.int n => !(n = 0)
  | Cell.str _ => true

/-- The `month_cols` local of `transform_wide_to_long`: the month-label
columns found in the frame, in column order. -/
def monthColsOf (df2 : Frame) : List String :=
  df2.cols.filter (fun c => memStr MONTH_COLUMNS c)

/-- The `id_vars` local of `transform_wide_to_long`: all other columns. -/
def idVarsOf (df2 : Frame) : List String :=
  df2.cols.filter (fun c => !memStr (monthColsOf df2) c)

/-- The `df.melt(id_vars=..., value_vars=month_cols, var_name="month_name",
value_name="amount")` call: one output row per (value column, input row)
pair, stacked per value column as pandas does. -/
def meltW (df2 : Frame) : Frame :=
  ⟨idVarsOf df2 ++ ["month_name", "amount"],
   (monthColsOf df2).flatMap (fun v =>
     df2.rows.map (fun r =>
       (idVarsOf df2).map (fun c => cellOf df2.cols r c) ++ [Cell.str v, cellOf df2.cols r v]))⟩

/-- `df_long["month"] = df_long["month_name"].map(month_map)`. -/
def withMonthW (df2 : Frame) : Frame :=
  mapSetCol (meltW df2) "month" (fun r => mapMonth (cellOf (meltW df2).cols r "month_name"))

/-- `df_long = df_long.drop(columns=["month_name"])`. -/
def droppedW (df2 : Frame) : Frame :=
  dropColumns (withMonthW df2) ["month_name"]

/-- `df_long = df_long[df_long["amount"].notna() & (df_long["amount"] != 0)]`. -/
def filteredW (df2 : Frame) : Frame :=
  ⟨(droppedW df2).cols,
   (droppedW df2).rows.filter (fun r => keepAmount (cellOf (droppedW df2).cols r "amount"))⟩

/-- CSVImporter.transform_wide_to_long: normalize headers, drop ignored
columns, melt the month-label columns into (month_name, amount), map month
labels to numbers, drop the label column, and drop rows whose amount is
missing or zero.  The `value_name` clash guard models the ValueError that
`pandas.melt` raises when the frame already has an "amount" column; the
no-month-columns error is raised by the source itself. -/
def transform_wide_to_long (df0 : Frame) : Except String Frame :=
  let df2 := dropColumns (normalize_columns df0) IGNORE_COLUMNS
  if (monthColsOf df2).isEmpty then
    Except.error "月別カラム（1月〜12月）が見つかりません"
  else if memStr df2.cols "amount" then
    Except.error "value_name (amount) cannot match an element in the DataFrame columns"
  else
    Except.ok (filteredW df2)

/-- Required canonical columns absent from the frame, in declaration order
(the `missing_columns` loop of `validate_csv`). -/
def missingCols (df : Frame) : List String :=
  REQUIRED_COLUMNS_LONG.filter (fun c => !memStr df.cols c)

/-- The three numeric coercions of `validate_csv` (year, month, amount). -/
def coerceYMA (df : Frame) : Frame :=
  coerceCol (coerceCol (coerceCol df "year") "month") "amount"

/-- Is the cell of row `r` in column `c` missing? -/
def isNaAt (cols : List String) (r : List Cell) (c : String) : Bool :=
  match cellOf cols r c with
  | Cell.na => true
  | _ => false

/-- Rows whose year, month, or amount is missing after coercion
(`df[df["year"].isna() | df["month"].isna() | df["amount"].isna()]`). -/
def invalidRows (df : Frame) : List (List Cell) :=
  df.rows.filter (fun r =>
    isNaAt df.cols r "year" || isNaAt df.cols r "month" || isNaAt df.cols r "amount")

/-- `df["month"].dropna()` after coercion: the integer month values (after
`coerceYMA` the month column holds only integers and NA). -/
def monthValues (df : Frame) : List Int :=
  df.rows.filterMap (fun r =>
    match cellOf df.cols r "month" with
    | Cell.int n => some n
    | _ => none)

/-- The format-dependent preparation step of `validate_csv`: wide frames are
transformed to long (errors wrapped as ワイド→ロング変換エラー), long frames
have their headers normalized. -/
def prepared (df0 : Frame) : Except String Frame :=
  if detect_format df0 = "wide" then
    match transform_wide_to_long df0 with
    | Except.ok d => Except.ok d
    | Except.error e => Except.error ("ワイド→ロング変換エラー: " ++ e)
  else Except.ok (normalize_columns df0)

/-- The error list collected by `validate_csv` after the required-columns
check: the count of rows failing numeric coercion, then the month-range
violation, in the order the source appends them. -/
def validationErrors (df : Frame) : List String :=
  let errs1 :=
    if 0 < (invalidRows (coerceYMA df)).length then
      [toString (invalidRows (coerceYMA df)).length ++ "行のデータに数値変換エラーがあります"]
    else []
  if (monthValues (coerceYMA df)).any (fun m => decide (m < 1) || decide (12 < m)) then
    errs1 ++ ["月は1-12の範囲で指定してください"]
  else errs1

/-- CSVImporter.validate_csv from the point where the CSV has been parsed
into a frame (file existence, encoding detection and `pd.read_csv` are I/O
outside the embedding): detect format, transform/normalize, check required
columns, coerce year/month/amount, report coercion-failing rows, and check
the month range.  Returns (valid flag, frame, error list); on the
type-check branches the frame component is the coerced frame, as in the
source, where the coercions reassign `df` in place. -/
def validate_frame (df0 : Frame) : Bool × Frame × List String :=
  match prepared df0 with
  | Except.error e => (false, Frame.empty, [e])
  | Except.ok df =>
    if !(missingCols df).isEmpty then
      (false, df, ["必須カラムがありません: " ++ joinComma (missingCols df)])
    else if !(validationErrors df).isEmpty then
      (false, coerceYMA df, validationErrors df)
    else (true, coerceYMA df, [])

/-- One row of the `transactions_denormalized` table. -/
structure TransactionRecord where
  year : Int
  month : Int
  segment : String
  division : String
  dept_code : String
  dept_name : String
  customer_code : String
  customer_name : String
  industry : String
  account : String
  amount : Int
  deriving DecidableEq

/-- Python `int(...)` applied to a cell: integers stay, integer-like strings
parse, NA raises (here: `none`, recorded as a warning by the insert loop). -/
def toPyInt : Cell → Option Int
  | Cell.int n => some n
  | Cell.na => none
  | Cell.str s => parseIntStr s

/-- Python `str(...)` applied to a cell. -/
def toPyStr : Cell → String
  | Cell.str s => s
  | Cell.int n => toString n
  | Cell.na => "<NA>"

/-- Build the INSERT parameter tuple of `import_csv` from one row; `none`
when one of the `int(...)` conversions raises. -/
def rowToRecord (cols : List String) (r : List Cell) : Option TransactionRecord :=
  match toPyInt (cellOf cols r "year"), toPyInt (cellOf cols r "month"),
        toPyInt (cellOf cols r "amount") with
  | some y, some m, some a =>
    some { year := y, month := m,
           segment := toPyStr (cellOf cols r "segment"),
           division := toPyStr (cellOf cols r "division"),
           dept_code := toPyStr (cellOf cols r "dept_code"),
           dept_name := toPyStr (cellOf cols r "dept_name"),
           customer_code := toPyStr (cellOf cols r "customer_code"),
           customer_name := toPyStr (cellOf cols r "customer_name"),
           industry := toPyStr (cellOf cols r "industry"),
           account := toPyStr (cellOf cols r "account"),
           amount := a }
  | _, _, _ => none

/-- The insert loop of `import_csv`: inserts each row independently, counts
successes, and records a warning per failing row (row positions are modelled
positionally; the warning text is not load-bearing for any claim).  Returns
(inserted records, inserted count, warnings). -/
def insertRows (cols : List String) : List (List Cell) → Nat → List TransactionRecord × Nat × List String
  | [], _ => ([], 0, [])
  | r :: rs, idx =>
    let rest := insertRows cols rs (idx + 1)
    match rowToRecord cols r with
    | some t => (t :: rest.1, rest.2.1 + 1, rest.2.2)
    | none => (rest.1, rest.2.1, ("行 " ++ toString (idx + 2) ++ ": 変換エラー") :: rest.2.2)

/-- `df.dropna(subset=["year", "month", "amount"])`. -/
def dropnaYMA (df : Frame) : Frame :=
  ⟨df.cols, df.rows.filter (fun r =>
    !(isNaAt df.cols r "year" || isNaAt df.cols r "month" || isNaAt df.cols r "amount"))⟩

/-- CSVImporter.import_csv acting on an explicit storage state: validate,
drop rows with missing year/month/amount, reject an empty batch, delete the
table in "replace" mode, insert row by row, and cap the reported warnings at
five plus a summary.  Returns ((success, inserted count, errors), new table
state). -/
def importCSV (df0 : Frame) (mode : String) (table : List TransactionRecord) :
    (Bool × Nat × List String) × List TransactionRecord :=
  let v := validate_frame df0
  if !v.1 then ((false, 0, v.2.2), table)
  else
    let df := v.2.1
    let df_clean := dropnaYMA df
    if df_clean.rows.isEmpty then
      ((false, 0, ["インポート可能なデータがありません"]), table)
    else
      let base := if mode = "replace" then [] else table
      let ins := insertRows df_clean.cols df_clean.rows 0
      let errs :=
        if !ins.2.2.isEmpty then
          ins.2.2.take 5 ++
            (if 5 < ins.2.2.length then ["...他 " ++ toString (ins.2.2.length - 5) ++ " 件の警告"] else [])
        else []
      ((true, ins.2.1, errs), base ++ ins.1)

/-- CSVImporter.detect_encoding: the fixed priority list of candidate
encodings. -/
def ENCODINGS : List String := ["utf-8-sig", "utf-8", "shift_jis", "cp932", "euc-jp"]

/-- CSVImporter.detect_encoding, looping over the candidate list and
returning the first encoding under which reading the head of the file
succeeds; the platform codec (`open(...).read(1024)` succeeding or raising
UnicodeDecodeError/UnicodeError) is external library code, modelled as the
boolean oracle `ok`.  Falls through to "utf-8" when every candidate fails. -/
def detectEncodingLoop (ok : String → List Nat → Bool) (file : List Nat) : List String → String
  | [] => "utf-8"
  | e :: rest => if ok e file then e else detectEncodingLoop ok file rest

/-- CSVImporter.detect_encoding on a file given as its byte contents. -/
def detect_encoding (ok : String → List Nat → Bool) (file : List Nat) : String :=
  detectEncodingLoop ok file ENCODINGS

/-
AccountingDatabase (app/models/database.py): the aggregation accessors the
claims touch, over an explicit table state (the rows of
`transactions_denormalized`).  SQL `SELECT ... GROUP BY ... ORDER BY` is
modelled as filter, group-by-key (first-occurrence key order, then sorted by
the ORDER BY key), `SUM` as integer fold, and `MAX` over strings as the
lexicographic maximum of the group.
-/

/-- SUM(amount) over a group. -/
def sumAmounts (l : List TransactionRecord) : Int :=
  l.foldl (fun acc t => acc + t.amount) 0

/-- SUM(CASE WHEN account = '売上高' THEN amount ELSE 0 END). -/
def sumSales (l : List TransactionRecord) : Int :=
  l.foldl (fun acc t => acc + (if t.account = "売上高" then t.amount else 0)) 0

/-- SUM(CASE WHEN account = '売上原価' THEN amount ELSE 0 END). -/
def sumCost (l : List TransactionRecord) : Int :=
  l.foldl (fun acc t => acc + (if t.account = "売上原価" then t.amount else 0)) 0

/-- Lexicographic codepoint order on strings (SQLite text comparison on the
UTF-8 values that occur). -/
def strLtB : List Char → List Char → Bool
  | [], [] => false
  | [], _ :: _ => true
  | _ :: _, [] => false
  | a :: as, b :: bs =>
    if a.toNat < b.toNat then true
    else if b.toNat < a.toNat then false
    else strLtB as bs

/-- MAX(dept_name) over a (nonempty) group. -/
def maxName (names : List String) : String :=
  names.foldl (fun a b => if strLtB a.data b.data then b else a) ""

/-- Insert into a list sorted by `le`. -/
def insertSorted {α : Type} (le : α → α → Bool) (x : α) : List α → List α
  | [] => [x]
  | y :: ys => if le x y then x :: y :: ys else y :: insertSorted le x ys

/-- Insertion sort by `le` (models the ORDER BY clause). -/
def sortByKey {α : Type} (le : α → α → Bool) (l : List α) : List α :=
  l.foldr (insertSorted le) []

/-- Keep the first occurrence of each element (GROUP BY key extraction). -/
def dedupAux {α : Type} [BEq α] (seen : List α) : List α → List α
  | [] => []
  | x :: xs => if seen.contains x then dedupAux seen xs else x :: dedupAux (x :: seen) xs

/-- Distinct keys in order of first occurrence. -/
def dedupKeys {α : Type} [BEq α] (l : List α) : List α := dedupAux [] l

/-- AccountingDatabase.get_monthly_data: guard on empty filter lists, then
SELECT year, month, SUM(amount) ... GROUP BY year, month ORDER BY year,
month. -/
def get_monthly_data (years : List Int) (divisions : List String) (account : String)
    (tbl : List TransactionRecord) : Frame :=
  if years.isEmpty || divisions.isEmpty then ⟨["year", "month", "total"], []⟩
  else
    let matched := tbl.filter (fun t =>
      t.account == account && years.contains t.year && divisions.contains t.division)
    let keys := sortByKey
      (fun a b => decide (a.1 < b.1) || (a.1 == b.1 && decide (a.2 ≤ b.2)))
      (dedupKeys (matched.map (fun t => (t.year, t.month))))
    ⟨["year", "month", "total"],
     keys.map (fun k =>
       [Cell.int k.1, Cell.int k.2,
        Cell.int (sumAmounts (matched.filter (fun t => t.year == k.1 && t.month == k.2)))])⟩

/-- AccountingDatabase.get_segment_summary: guard on an empty years list,
then SELECT segment, SUM(amount) ... GROUP BY segment ORDER BY total DESC. -/
def get_segment_summary (years : List Int) (account : String)
    (tbl : List TransactionRecord) : Frame :=
  if years.isEmpty then ⟨["segment", "total"], []⟩
  else
    let matched := tbl.filter (fun t => t.account == account && years.contains t.year)
    let grouped := (dedupKeys (matched.map (fun t => t.segment))).map (fun s =>
      (s, sumAmounts (matched.filter (fun t => t.segment == s))))
    let sorted := sortByKey (fun a b => decide (b.2 ≤ a.2)) grouped
    ⟨["segment", "total"], sorted.map (fun p => [Cell.str p.1, Cell.int p.2])⟩

/-- AccountingDatabase.get_dept_monthly_data: guard on empty years or
dept_codes lists, then SELECT year, month, dept_code, MAX(dept_name),
SUM(amount) ... GROUP BY year, month, dept_code ORDER BY year, month,
dept_code. -/
def get_dept_monthly_data (years : List Int) (division : String)
    (dept_codes : List String) (account : String)
    (tbl : List TransactionRecord) : Frame :=
  if years.isEmpty || dept_codes.isEmpty then
    ⟨["year", "month", "dept_code", "dept_name", "total"], []⟩
  else
    let matched := tbl.filter (fun t =>
      t.account == account && t.division == division &&
      years.contains t.year && dept_codes.contains t.dept_code)
    let keys := sortByKey
      (fun a b => decide (a.1 < b.1) ||
        (a.1 == b.1 && (decide (a.2.1 < b.2.1) || (a.2.1 == b.2.1 && decide (a.2.2 ≤ b.2.2)))))
      (dedupKeys (matched.map (fun t => (t.year, t.month, t.dept_code))))
    ⟨["year", "month", "dept_code", "dept_name", "total"],
     keys.map (fun k =>
       let g := matched.filter (fun t =>
         t.year == k.1 && t.month == k.2.1 && t.dept_code == k.2.2)
       [Cell.int k.1, Cell.int k.2.1, Cell.str k.2.2,
        Cell.str (maxName (g.map (fun t => t.dept_name))),
        Cell.int (sumAmounts g)])⟩

/-- AccountingDatabase.get_dept_profit_summary_by_division: guard on an empty
years list only; `if dept_codes:` is false for both None and the empty list,
in which case the query runs without a department filter.  SELECT dept_code,
MAX(dept_name), sales, cost, profit ... GROUP BY dept_code ORDER BY sales
DESC. -/
def get_dept_profit_summary_by_division (years : List Int) (division : String)
    (dept_codes : Option (List String)) (tbl : List TransactionRecord) : Frame :=
  if years.isEmpty then
    ⟨["dept_code", "dept_name", "sales", "cost", "profit"], []⟩
  else
    let useDept := match dept_codes with
      | some l => !l.isEmpty
      | none => false
    let matched := tbl.filter (fun t =>
      t.division == division && years.contains t.year &&
      (if useDept then (dept_codes.getD []).contains t.dept_code else true))
    let grouped := (dedupKeys (matched.map (fun t => t.dept_code))).map (fun dc =>
      let g := matched.filter (fun t => t.dept_code == dc)
      (dc, maxName (g.map (fun t => t.dept_name)), sumSales g, sumCost g))
    let sorted := sortByKey (fun a b => decide (b.2.2.1 ≤ a.2.2.1)) grouped
    ⟨["dept_code", "dept_name", "sales", "cost", "profit"],
     sorted.map (fun p =>
       [Cell.str p.1, Cell.str p.2.1, Cell.int p.2.2.1, Cell.int p.2.2.2,
        Cell.int (p.2.2.1 - p.2.2.2)])⟩

/-! Helper lemmas about the frame primitives. -/

theorem memStr_eq_mem (l : List String) (c : String) : memStr l c = true ↔ c ∈ l := by
  induction l with
  | nil => simp [memStr]
  | cons x xs ih =>
    by_cases h : x = c
    · simp [memStr, h]
    · simp [memStr, h, ih, Ne.symm h]

theorem colIdx_cons_ne (x : String) (xs : List String) (c : String) (h : ¬x = c) :
    colIdx (x :: xs) c = (colIdx xs c).map (· + 1) := by
  simp [colIdx, h]

theorem colIdx_lt (l : List String) (c : String) (i : Nat) (h : colIdx l c = some i) :
    i < l.length := by
  induction l generalizing i with
  | nil => simp [colIdx] at h
  | cons x xs ih =>
    by_cases hx : x = c
    · have : i = 0 := by simpa [colIdx, hx] using h.symm
      subst this
      simp
    · rw [colIdx_cons_ne x xs c hx] at h
      cases hj : colIdx xs c with
      | none => rw [hj] at h; exact Option.noConfusion h
      | some j =>
        rw [hj] at h
        simp only [Option.map_some', Option.some.injEq] at h
        have hji := ih j hj
        simp only [List.length_cons]
        omega

theorem colIdx_getD (l : List String) (c : String) (i : Nat) (h : colIdx l c = some i) :
    l.getD i "" = c := by
  induction l generalizing i with
  | nil => simp [colIdx] at h
  | cons x xs ih =>
    by_cases hx : x = c
    · have : i = 0 := by simpa [colIdx, hx] using h.symm
      subst this
      simpa using hx
    · rw [colIdx_cons_ne x xs c hx] at h
      cases hj : colIdx xs c with
      | none => rw [hj] at h; exact Option.noConfusion h
      | some j =>
        rw [hj] at h
        simp only [Option.map_some', Option.some.injEq] at h
        have := ih j hj
        rw [← h]
        simpa using this

theorem colIdx_inj (l : List String) (a b : String) (i : Nat)
    (ha : colIdx l a = some i) (hb : colIdx l b = some i) : a = b := by
  rw [← colIdx_getD l a i ha, ← colIdx_getD l b i hb]

theorem colIdx_eq_none (l : List String) (c : String) :
    colIdx l c = none ↔ memStr l c = false := by
  induction l with
  | nil => simp [colIdx, memStr]
  | cons x xs ih =>
    by_cases hx : x = c
    · simp [colIdx, memStr, hx]
    · simp [colIdx, memStr, hx, ih]

theorem colIdx_append_left (l₁ l₂ : List String) (c : String) (i : Nat)
    (h : colIdx l₁ c = some i) : colIdx (l₁ ++ l₂) c = some i := by
  induction l₁ generalizing i with
  | nil => simp [colIdx] at h
  | cons x xs ih =>
    by_cases hx : x = c
    · have : i = 0 := by simpa [colIdx, hx] using h.symm
      subst this
      simp [colIdx, hx]
    · rw [colIdx_cons_ne x xs c hx] at h
      cases hj : colIdx xs c with
      | none => rw [hj] at h; exact Option.noConfusion h
      | some j =>
        rw [hj] at h
        simp only [Option.map_some', Option.some.injEq] at h
        rw [List.cons_append, colIdx_cons_ne x (xs ++ l₂) c hx, ih j hj]
        simpa using h

theorem colIdx_append_right (l₁ l₂ : List String) (c : String)
    (h : memStr l₁ c = false) :
    colIdx (l₁ ++ l₂) c = (colIdx l₂ c).map (· + l₁.length) := by
  induction l₁ with
  | nil => cases hc : colIdx l₂ c <;> simp [hc]
  | cons x xs ih =>
    have hx : ¬x = c := by
      intro hxc
      simp [memStr, hxc] at h
    have hxs : memStr xs c = false := by
      simpa [memStr, hx] using h
    rw [List.cons_append, colIdx_cons_ne x (xs ++ l₂) c hx, ih hxs]
    cases hc : colIdx l₂ c with
    | none => simp
    | some j => simp [List.length_cons]; omega

theorem cellOf_cons (x : String) (cs : List String) (v : Cell) (rs : List Cell) (c : String) :
    cellOf (x :: cs) (v :: rs) c = if x = c then v else cellOf cs rs c := by
  by_cases h : x = c
  · simp [cellOf, colIdx, h]
  · simp only [cellOf, colIdx, h, ite_false, if_neg]
    cases hj : colIdx cs c <;> simp [hj]

theorem getD_set_self (l : List Cell) (i : Nat) (v : Cell) (h : i < l.length) :
    (l.set i v).getD i Cell.na = v := by
  simp [List.getD_eq_getElem?_getD, List.getElem?_set_self, h]

theorem getD_set_ne (l : List Cell) (i j : Nat) (v : Cell) (h : i ≠ j) :
    (l.set i v).getD j Cell.na = l.getD j Cell.na := by
  simp [List.getD_eq_getElem?_getD, List.getElem?_set_ne h]

theorem cellOf_eq_getD (cols : List String) (r : List Cell) (c : String) (i : Nat)
    (h : colIdx cols c = some i) : cellOf cols r c = r.getD i Cell.na := by
  simp [cellOf, h]

theorem cellOf_of_none (cols : List String) (r : List Cell) (c : String)
    (h : colIdx cols c = none) : cellOf cols r c = Cell.na := by
  simp [cellOf, h]

/-- Behaviour of `mapSetCol`: it preserves well-formedness and row count, and
every output row comes from an input row whose cell in the written column is
the computed value and whose other cells are untouched. -/
theorem mapSetCol_spec (f : Frame) (name : String) (g : List Cell → Cell) (hWF : f.WF) :
    (mapSetCol f name g).WF ∧
    (mapSetCol f name g).rows.length = f.rows.length ∧
    ∀ r' ∈ (mapSetCol f name g).rows, ∃ r ∈ f.rows,
      cellOf (mapSetCol f name g).cols r' name = g r ∧
      ∀ c, c ≠ name → cellOf (mapSetCol f name g).cols r' c = cellOf f.cols r c := by
  unfold mapSetCol
  cases hidx : colIdx f.cols name with
  | some i =>
    simp only
    refine ⟨?_, by simp, ?_⟩
    · intro r' hr'
      simp only [List.mem_map] at hr'
      obtain ⟨r, hr, rfl⟩ := hr'
      simp [List.length_set, hWF r hr]
    · intro r' hr'
      simp only [List.mem_map] at hr'
      obtain ⟨r, hr, rfl⟩ := hr'
      refine ⟨r, hr, ?_, ?_⟩
      · rw [cellOf_eq_getD _ _ _ _ hidx, getD_set_self]
        rw [hWF r hr]
        exact colIdx_lt _ _ _ hidx
      · intro c hc
        cases hj : colIdx f.cols c with
        | none => rw [cellOf_of_none _ _ _ hj, cellOf_of_none _ _ _ hj]
        | some j =>
          rw [cellOf_eq_getD _ _ _ _ hj, cellOf_eq_getD _ _ _ _ hj, getD_set_ne]
          intro hij
          subst hij
          exact hc (colIdx_inj f.cols c name i hj hidx)
  | none =>
    simp only
    have hmem : memStr f.cols name = false := (colIdx_eq_none f.cols name).mp hidx
    refine ⟨?_, by simp, ?_⟩
    · intro r' hr'
      simp only [List.mem_map] at hr'
      obtain ⟨r, hr, rfl⟩ := hr'
      simp [hWF r hr]
    · intro r' hr'
      simp only [List.mem_map] at hr'
      obtain ⟨r, hr, rfl⟩ := hr'
      refine ⟨r, hr, ?_, ?_⟩
      · have hci : colIdx (f.cols ++ [name]) name = some f.cols.length := by
          rw [colIdx_append_right f.cols [name] name hmem]
          simp [colIdx]
        rw [cellOf_eq_getD _ _ _ _ hci,
            List.getD_append_right _ _ _ _ (by rw [hWF r hr])]
        simp [hWF r hr]
      · intro c hc
        cases hj : colIdx f.cols c with
        | none =>
          have hcj : colIdx (f.cols ++ [name]) c = none := by
            rw [colIdx_append_right f.cols [name] c ((colIdx_eq_none f.cols c).mp hj)]
            simp [colIdx, Ne.symm hc]
          rw [cellOf_of_none _ _ _ hcj, cellOf_of_none _ _ _ hj]
        | some j =>
          have hcj : colIdx (f.cols ++ [name]) c = some j := colIdx_append_left _ _ _ _ hj
          rw [cellOf_eq_getD _ _ _ _ hcj, cellOf_eq_getD _ _ _ _ hj,
              List.getD_append _ _ _ _ (by rw [hWF r hr]; exact colIdx_lt _ _ _ hj)]

theorem zipFilter_length (names : List String) :
    ∀ (cols : List String) (r : List Cell), r.length = cols.length →
      ((cols.zip r).filterMap
          (fun p => if memStr names p.1 then none else some p.2)).length
        = (cols.filter (fun c => !memStr names c)).length := by
  intro cols
  induction cols with
  | nil =>
    intro r h
    rw [List.length_eq_zero.mp h]
    simp
  | cons x cs ih =>
    intro r h
    cases r with
    | nil => simp at h
    | cons v rs =>
      simp only [List.length_cons] at h
      by_cases hx : memStr names x
      · simp [List.zip_cons_cons, List.filterMap_cons, List.filter_cons, hx,
          ih rs (by omega)]
      · simp [List.zip_cons_cons, List.filterMap_cons, List.filter_cons, hx,
          ih rs (by omega)]

theorem zipFilter_cellOf (names : List String) :
    ∀ (cols : List String) (r : List Cell), r.length = cols.length →
      ∀ c, memStr names c = false →
        cellOf (cols.filter (fun c => !memStr names c))
            ((cols.zip r).filterMap
              (fun p => if memStr names p.1 then none else some p.2)) c
          = cellOf cols r c := by
  intro cols
  induction cols with
  | nil =>
    intro r h c hc
    rw [List.length_eq_zero.mp h]
    simp [cellOf, colIdx]
  | cons x cs ih =>
    intro r h c hc
    cases r with
    | nil => simp at h
    | cons v rs =>
      simp only [List.length_cons] at h
      rw [List.zip_cons_cons]
      cases hxf : memStr names x with
      | true =>
        have hxc : ¬x = c := by
          intro hxc
          rw [hxc, hc] at hxf
          exact Bool.noConfusion hxf
        have hzip : ((x, v) :: cs.zip rs).filterMap
            (fun p => if memStr names p.1 then none else some p.2)
            = (cs.zip rs).filterMap (fun p => if memStr names p.1 then none else some p.2) := by
          simp [List.filterMap_cons, hxf]
        have hfil : (x :: cs).filter (fun c => !memStr names c)
            = cs.filter (fun c => !memStr names c) := by
          simp [List.filter_cons, hxf]
        rw [hzip, hfil, cellOf_cons x cs v rs c, if_neg hxc]
        exact ih rs (by omega) c hc
      | false =>
        have hzip : ((x, v) :: cs.zip rs).filterMap
            (fun p => if memStr names p.1 then none else some p.2)
            = v :: (cs.zip rs).filterMap (fun p => if memStr names p.1 then none else some p.2) := by
          simp [List.filterMap_cons, hxf]
        have hfil : (x :: cs).filter (fun c => !memStr names c)
            = x :: cs.filter (fun c => !memStr names c) := by
          simp [List.filter_cons, hxf]
        rw [hzip, hfil, cellOf_cons x cs v rs c,
            cellOf_cons x (cs.filter (fun c => !memStr names c))
              v ((cs.zip rs).filterMap
                (fun p => if memStr names p.1 then none else some p.2)) c]
        by_cases hxc : x = c
        · rw [if_pos hxc, if_pos hxc]
        · rw [if_neg hxc, if_neg hxc]
          exact ih rs (by omega) c hc

/-- Behaviour of `dropColumns`: preserves well-formedness and row count, and
cells of columns not dropped are untouched. -/
theorem dropColumns_spec (f : Frame) (names : List String) (hWF : f.WF) :
    (dropColumns f names).WF ∧
    (dropColumns f names).rows.length = f.rows.length ∧
    ∀ r' ∈ (dropColumns f names).rows, ∃ r ∈ f.rows,
      ∀ c, memStr names c = false →
        cellOf (dropColumns f names).cols r' c = cellOf f.cols r c := by
  unfold dropColumns
  refine ⟨?_, by simp, ?_⟩
  · intro r' hr'
    simp only [List.mem_map] at hr'
    obtain ⟨r, hr, rfl⟩ := hr'
    exact zipFilter_length names f.cols r (hWF r hr)
  · intro r' hr'
    simp only [List.mem_map] at hr'
    obtain ⟨r, hr, rfl⟩ := hr'
    exact ⟨r, hr, fun c hc => zipFilter_cellOf names f.cols r (hWF r hr) c hc⟩

theorem normalize_columns_WF (f : Frame) (h : f.WF) : (normalize_columns f).WF := by
  intro r hr
  simp only [normalize_columns, List.length_map]
  exact h r hr

theorem meltW_WF (df2 : Frame) : (meltW df2).WF := by
  intro r hr
  simp only [meltW, List.mem_flatMap, List.mem_map] at hr
  obtain ⟨v, _, rsrc, _, rfl⟩ := hr
  simp [meltW]

theorem withMonthW_WF (df2 : Frame) : (withMonthW df2).WF :=
  (mapSetCol_spec (meltW df2) "month"
    (fun r => mapMonth (cellOf (meltW df2).cols r "month_name")) (meltW_WF df2)).1

theorem droppedW_WF (df2 : Frame) : (droppedW df2).WF :=
  (dropColumns_spec (withMonthW df2) ["month_name"] (withMonthW_WF df2)).1

theorem filteredW_WF (df2 : Frame) : (filteredW df2).WF := by
  intro r hr
  simp only [filteredW, List.mem_filter] at hr
  exact droppedW_WF df2 r hr.1

theorem transform_WF (df0 d : Frame) (h : transform_wide_to_long df0 = Except.ok d) :
    d.WF := by
  unfold transform_wide_to_long at h
  by_cases h1 : (monthColsOf (dropColumns (normalize_columns df0) IGNORE_COLUMNS)).isEmpty
  · simp [h1] at h
  · by_cases h2 : memStr (dropColumns (normalize_columns df0) IGNORE_COLUMNS).cols "amount"
    · simp [h1, h2] at h
    · simp only [h1, h2, Bool.false_eq_true, if_false, Except.ok.injEq] at h
      subst h
      exact filteredW_WF _

theorem prepared_WF (df0 d : Frame) (hWF : df0.WF) (h : prepared df0 = Except.ok d) :
    d.WF := by
  unfold prepared at h
  by_cases hf : detect_format df0 = "wide"
  · rw [if_pos hf] at h
    cases ht : transform_wide_to_long df0 with
    | ok x =>
      rw [ht] at h
      simp only [Except.ok.injEq] at h
      subst h
      exact transform_WF df0 x ht
    | error e =>
      rw [ht] at h
      exact Except.noConfusion h
  · rw [if_neg hf] at h
    simp only [Except.ok.injEq] at h
    subst h
    exact normalize_columns_WF df0 hWF

/-- Is a cell an integer or missing (never a string)?  All three coerced
columns satisfy this. -/
def isIntOrNa (c : Cell) : Bool :=
  match c with
  | Cell.str _ => false
  | _ => true

theorem coerceInt_isIntOrNa (c : Cell) : isIntOrNa (coerceInt c) = true := by
  cases c with
  | na => rfl
  | int n => rfl
  | str s =>
    simp only [coerceInt]
    cases hp : parseIntStr s <;> simp [hp, isIntOrNa]

theorem coerceCol_step (f : Frame) (name : String) (hWF : f.WF) :
    (coerceCol f name).WF ∧
    (coerceCol f name).rows.length = f.rows.length ∧
    (∀ r ∈ (coerceCol f name).rows, isIntOrNa (cellOf (coerceCol f name).cols r name) = true) ∧
    ∀ c, c ≠ name →
      (∀ r ∈ f.rows, isIntOrNa (cellOf f.cols r c) = true) →
      ∀ r ∈ (coerceCol f name).rows, isIntOrNa (cellOf (coerceCol f name).cols r c) = true := by
  unfold coerceCol
  obtain ⟨h1, h2, h3⟩ :=
    mapSetCol_spec f name (fun r => coerceInt (cellOf f.cols r name)) hWF
  refine ⟨h1, h2, ?_, ?_⟩
  · intro r' hr'
    obtain ⟨r, _, hself, _⟩ := h3 r' hr'
    rw [hself]
    exact coerceInt_isIntOrNa _
  · intro c hc hprop r' hr'
    obtain ⟨r, hr, _, hother⟩ := h3 r' hr'
    rw [hother c hc]
    exact hprop r hr

theorem coerceYMA_spec (f : Frame) (hWF : f.WF) :
    (coerceYMA f).WF ∧
    ∀ r ∈ (coerceYMA f).rows,
      isIntOrNa (cellOf (coerceYMA f).cols r "year") = true ∧
      isIntOrNa (cellOf (coerceYMA f).cols r "month") = true ∧
      isIntOrNa (cellOf (coerceYMA f).cols r "amount") = true := by
  unfold coerceYMA
  obtain ⟨w1, _, s1, p1⟩ := coerceCol_step f "year" hWF
  obtain ⟨w2, _, s2, p2⟩ := coerceCol_step (coerceCol f "year") "month" w1
  obtain ⟨w3, _, s3, p3⟩ := coerceCol_step (coerceCol (coerceCol f "year") "month") "amount" w2
  refine ⟨w3, fun r hr => ⟨?_, ?_, ?_⟩⟩
  · exact p3 "year" (by decide) (p2 "year" (by decide) s1) r hr
  · exact p3 "month" (by decide) s2 r hr
  · exact s3 r hr

theorem insertRows_all_some (cols : List String) :
    ∀ (rows : List (List Cell)) (idx : Nat),
      (∀ r ∈ rows, (rowToRecord cols r).isSome = true) →
      (insertRows cols rows idx).1.length = rows.length ∧
      (insertRows cols rows idx).2.1 = rows.length ∧
      (insertRows cols rows idx).2.2 = [] := by
  intro rows
  induction rows with
  | nil =>
    intro idx h
    simp [insertRows]
  | cons r rs ih =>
    intro idx h
    have hr := h r (by simp)
    obtain ⟨t, ht⟩ := Option.isSome_iff_exists.mp hr
    have hrest := ih (idx + 1) (fun x hx => h x (by simp [hx]))
    simp [insertRows, ht, hrest.1, hrest.2.1, hrest.2.2]

theorem validationErrors_nil_elim (df1 : Frame) (h : validationErrors df1 = []) :
    invalidRows (coerceYMA df1) = [] ∧
    ((monthValues (coerceYMA df1)).any fun m => decide (m < 1) || decide (12 < m)) = false := by
  unfold validationErrors at h
  split_ifs at h with h1 h2 h2 <;> simp_all

theorem validationErrors_ne_nil_of_invalid (df1 : Frame)
    (h : invalidRows (coerceYMA df1) ≠ []) : validationErrors df1 ≠ [] := by
  unfold validationErrors
  rw [if_pos (List.length_pos.mpr h)]
  split_ifs <;> simp

theorem validationErrors_ne_nil_of_month (df1 : Frame)
    (h : ((monthValues (coerceYMA df1)).any fun m => decide (m < 1) || decide (12 < m)) = true) :
    validationErrors df1 ≠ [] := by
  unfold validationErrors
  rw [if_pos h]
  split_ifs <;> simp

theorem validate_true_elim (df0 df : Frame) (h : validate_frame df0 = (true, df, [])) :
    ∃ df1, prepared df0 = Except.ok df1 ∧ missingCols df1 = [] ∧
      df = coerceYMA df1 ∧ invalidRows (coerceYMA df1) = [] := by
  unfold validate_frame at h
  cases hp : prepared df0 with
  | error e =>
    rw [hp] at h
    simp at h
  | ok d1 =>
    rw [hp] at h
    simp only at h
    refine ⟨d1, rfl, ?_⟩
    split_ifs at h with h1 h2
    · exact absurd h (by simp)
    · exact absurd h (by simp)
    · have hdf : df = coerceYMA d1 := by
        have := congrArg (fun t => t.2.1) h
        simpa using this.symm
      have hm : missingCols d1 = [] := by simpa using h1
      have hv : validationErrors d1 = [] := by simpa using h2
      exact ⟨hm, hdf, (validationErrors_nil_elim d1 hv).1⟩

/-! Claim theorems. -/

/-- C7: every column header that is already a canonical field name is left
unchanged by the column normalizer, both header-wise and frame-wise
(normalization of canonical headers is a no-op). -/
theorem C7_normalize_canonical_noop :
    (∀ c ∈ REQUIRED_COLUMNS_LONG, normalizeHeader c = c) ∧
    ∀ df : Frame, (∀ c ∈ df.cols, c ∈ REQUIRED_COLUMNS_LONG) → normalize_columns df = df := by
  have hbase : ∀ c ∈ REQUIRED_COLUMNS_LONG, normalizeHeader c = c := by decide
  refine ⟨hbase, ?_⟩
  intro df hc
  unfold normalize_columns
  have hcols : df.cols.map normalizeHeader = df.cols := by
    calc df.cols.map normalizeHeader = df.cols.map id :=
          List.map_congr_left (fun x hx => hbase x (hc x hx))
      _ = df.cols := List.map_id df.cols
  rw [hcols]

/-- C7 witness: the canonical header "year" and a frame of canonical headers
are fixed points of normalization. -/
theorem C7_witness :
    normalizeHeader "year" = "year" ∧
    normalize_columns ⟨["year", "month"], [[Cell.int 2024, Cell.int 1]]⟩
      = ⟨["year", "month"], [[Cell.int 2024, Cell.int 1]]⟩ :=
  ⟨C7_normalize_canonical_noop.1 "year" (by decide),
   C7_normalize_canonical_noop.2 ⟨["year", "month"], [[Cell.int 2024, Cell.int 1]]⟩ (by decide)⟩

theorem detectEncodingLoop_spec (ok : String → List Nat → Bool) (file : List Nat)
    (l : List String) :
    (∀ e, l.find? (fun e => ok e file) = some e → detectEncodingLoop ok file l = e) ∧
    (l.find? (fun e => ok e file) = none → detectEncodingLoop ok file l = "utf-8") := by
  induction l with
  | nil => exact ⟨fun e he => by simp at he, fun _ => rfl⟩
  | cons x xs ih =>
    cases hx : ok x file with
    | true =>
      refine ⟨fun e he => ?_, fun he => ?_⟩
      · rw [List.find?_cons] at he
        simp only [hx, cond_true, Option.some.injEq] at he
        subst he
        simp [detectEncodingLoop, hx]
      · rw [List.find?_cons] at he
        simp only [hx, cond_true] at he
        exact Option.noConfusion he
    | false =>
      refine ⟨fun e he => ?_, fun he => ?_⟩
      · rw [List.find?_cons] at he
        simp only [hx, cond_false] at he
        simp only [detectEncodingLoop, hx, Bool.false_eq_true, if_false]
        exact ih.1 e he
      · rw [List.find?_cons] at he
        simp only [hx, cond_false] at he
        simp only [detectEncodingLoop, hx, Bool.false_eq_true, if_false]
        exact ih.2 he

/-- C8: for every file content and every behaviour of the platform codecs
(modelled as the oracle `ok`), detect_encoding returns the first encoding of
the fixed priority list utf-8-sig, utf-8, shift_jis, cp932, euc-jp under
which the head of the file decodes, returns "utf-8" when none succeeds, and
always returns some encoding of the list or "utf-8" (it is a total function:
it never raises). -/
theorem C8_detect_encoding_first_success (ok : String → List Nat → Bool) (file : List Nat) :
    (∀ e, ENCODINGS.find? (fun e => ok e file) = some e → detect_encoding ok file = e) ∧
    (ENCODINGS.find? (fun e => ok e file) = none → detect_encoding ok file = "utf-8") ∧
    (detect_encoding ok file ∈ ENCODINGS ∨ detect_encoding ok file = "utf-8") := by
  obtain ⟨h1, h2⟩ := detectEncodingLoop_spec ok file ENCODINGS
  refine ⟨h1, h2, ?_⟩
  cases he : ENCODINGS.find? (fun e => ok e file) with
  | none => exact Or.inr (h2 he)
  | some e =>
    left
    rw [show detect_encoding ok file = e from h1 e he]
    exact List.mem_of_find?_eq_some he

/-- C8 witness: with an oracle under which exactly shift_jis succeeds on the
empty file, detect_encoding returns shift_jis. -/
theorem C8_witness :
    detect_encoding (fun e _ => e == "shift_jis") [] = "shift_jis" :=
  (C8_detect_encoding_first_success (fun e _ => e == "shift_jis") []).1 "shift_jis" (by rfl)

/-- The layout rule exactly as claim C4 words it, with "a month column is
present directly or after column-name normalization" read against the column
normalizer of the spec (which includes case-insensitive canonical matching,
so a "Month" header counts). -/
def layoutSpecC4 (df : Frame) : String :=
  if 6 ≤ (df.cols.filter (fun c => memStr MONTH_COLUMNS c)).length then "wide"
  else if memStr df.cols "month" || memStr df.cols "月"
      || memStr (df.cols.map normalizeHeader) "month" then "long"
  else "wide"

/-- The amended layout rule: same checks in the same order, but the third
check maps headers with the static dictionary only (strip + COLUMN_MAPPING),
without the case-insensitive canonical matching step. -/
def layoutSpecAmended (df : Frame) : String :=
  if 6 ≤ (df.cols.filter (fun c => memStr MONTH_COLUMNS c)).length then "wide"
  else if memStr df.cols "month" || memStr df.cols "月"
      || memStr (df.cols.map staticMapHeader) "month" then "long"
  else "wide"

/-- C4 counterexample: a frame whose only column is "Month".  The full column
normalizer maps "Month" to the canonical "month" (case-insensitive match), so
the claim classifies the frame as long, but detect_format only applies the
static dictionary and returns "wide". -/
theorem C4_counterexample :
    detect_format ⟨["Month"], []⟩ = "wide" ∧ layoutSpecC4 ⟨["Month"], []⟩ = "long" := by
  constructor <;> decide

/-- C4 (amended): detection classifies a frame as wide when at least six
month-label columns are present (counted with multiplicity); otherwise long
when "month" or "月" is present directly, or "month" appears after stripping
and the static header dictionary; otherwise wide — in exactly that order. -/
theorem C4_detect_format_order (df : Frame) :
    detect_format df = layoutSpecAmended df := by
  simp only [detect_format, layoutSpecAmended]
  split_ifs <;> simp_all

theorem validate_frame_errs (df0 df1 : Frame)
    (hp : prepared df0 = Except.ok df1)
    (hm : missingCols df1 = [])
    (hne : validationErrors df1 ≠ []) :
    validate_frame df0 = (false, coerceYMA df1, validationErrors df1) := by
  unfold validate_frame
  rw [hp]
  simp only
  rw [if_neg (by simp [hm]), if_pos (by simpa using hne)]

theorem importCSV_of_invalid (df0 fr : Frame) (mode : String)
    (table : List TransactionRecord) (errs : List String)
    (h : validate_frame df0 = (false, fr, errs)) :
    importCSV df0 mode table = ((false, 0, errs), table) := by
  unfold importCSV
  rw [h]
  simp

/-- C9: when validation succeeds but the cleaned frame has zero importable
rows, import_csv returns failure with zero rows inserted and performs
neither the replace-mode delete nor any insert: the stored table is
returned unchanged for every mode and every prior table state. -/
theorem C9_empty_batch_no_write (df0 df : Frame) (mode : String)
    (table : List TransactionRecord)
    (hval : validate_frame df0 = (true, df, []))
    (hempty : (dropnaYMA df).rows = []) :
    importCSV df0 mode table = ((false, 0, ["インポート可能なデータがありません"]), table) := by
  unfold importCSV
  rw [hval]
  simp [hempty]

/-- An empty long-layout frame: all canonical columns, no data rows. -/
def emptyLongFrame : Frame := ⟨REQUIRED_COLUMNS_LONG, []⟩

/-- A prior table row used to observe whether imports touch the table. -/
def priorRec : TransactionRecord :=
  { year := 2023, month := 5, segment := "既存S", division := "既存D", dept_code := "900",
    dept_name := "既存部門", customer_code := "C9", customer_name := "既存取引先",
    industry := "既存業種", account := "売上高", amount := 77 }

/-- C9 witness: an importable-row-free CSV in replace mode leaves the prior
table row in place and reports failure. -/
theorem C9_witness :
    importCSV emptyLongFrame "replace" [priorRec]
      = ((false, 0, ["インポート可能なデータがありません"]), [priorRec]) :=
  C9_empty_batch_no_write emptyLongFrame ⟨REQUIRED_COLUMNS_LONG, []⟩ "replace" [priorRec]
    (by decide) (by decide)

/-- A fully valid long-layout data row. -/
def goodRowC1 : List Cell :=
  [Cell.int 2024, Cell.int 1, Cell.str "製造事業", Cell.str "製造第一事業部",
   Cell.str "101", Cell.str "製造1課", Cell.str "130102", Cell.str "シータケミカル",
   Cell.str "化学", Cell.str "売上高", Cell.int 100]

/-- A row whose amount fails numeric coercion. -/
def badRowC1 : List Cell :=
  [Cell.int 2024, Cell.int 2, Cell.str "製造事業", Cell.str "製造第一事業部",
   Cell.str "101", Cell.str "製造1課", Cell.str "130102", Cell.str "シータケミカル",
   Cell.str "化学", Cell.str "売上高", Cell.str "abc"]

/-- A long CSV with one valid row. -/
def exC1good : Frame := ⟨REQUIRED_COLUMNS_LONG, [goodRowC1]⟩

/-- The same CSV plus one coercion-failing row. -/
def exC1bad : Frame := ⟨REQUIRED_COLUMNS_LONG, [goodRowC1, badRowC1]⟩

/-- The record inserted for `goodRowC1`. -/
def recC1 : TransactionRecord :=
  { year := 2024, month := 1, segment := "製造事業", division := "製造第一事業部",
    dept_code := "101", dept_name := "製造1課", customer_code := "130102",
    customer_name := "シータケミカル", industry := "化学", account := "売上高",
    amount := 100 }

/-- C1 counterexample: the one-good-row CSV imports fine, but adding a single
row whose amount fails coercion makes the whole import fail with zero rows
loaded — the good row of the batch is not imported, refuting the claim that
row-level coercion failures never fail the batch. -/
theorem C1_counterexample :
    importCSV exC1good "append" [] = ((true, 1, []), [recC1]) ∧
    importCSV exC1bad "append" [] = ((false, 0, ["1行のデータに数値変換エラーがあります"]), []) ∧
    exC1bad.rows = exC1good.rows ++ [badRowC1] := by
  refine ⟨by decide, by decide, by decide⟩

/-- C1 (amended): when the frame reaches the coercion step (preparation
succeeded, no required column missing) and at least one row fails numeric
coercion of year, month or amount, validation fails and the whole import is
rejected with zero rows loaded and the table untouched, for every mode and
prior table state. -/
theorem C1_coercion_failure_fatal (df0 df1 : Frame) (mode : String)
    (table : List TransactionRecord)
    (hprep : prepared df0 = Except.ok df1)
    (hmiss : missingCols df1 = [])
    (hinv : invalidRows (coerceYMA df1) ≠ []) :
    (validate_frame df0).1 = false ∧
    importCSV df0 mode table = ((false, 0, validationErrors df1), table) ∧
    validationErrors df1 ≠ [] := by
  have hne := validationErrors_ne_nil_of_invalid df1 hinv
  have hv := validate_frame_errs df0 df1 hprep hmiss hne
  exact ⟨by rw [hv], importCSV_of_invalid df0 (coerceYMA df1) mode table _ hv, hne⟩

/-- C1 witness: the amended theorem applied to the concrete two-row CSV. -/
theorem C1_witness :
    (validate_frame exC1bad).1 = false ∧
    importCSV exC1bad "append" [priorRec]
      = ((false, 0, validationErrors (normalize_columns exC1bad)), [priorRec]) ∧
    validationErrors (normalize_columns exC1bad) ≠ [] :=
  C1_coercion_failure_fatal exC1bad (normalize_columns exC1bad) "append" [priorRec]
    (by decide) (by decide) (by decide)

/-- A wide-layout CSV that also carries a literal "month" column whose value
13 is outside [1,12]. -/
def exC5wide : Frame :=
  ⟨["year", "month", "segment", "division", "dept_code", "dept_name",
    "customer_code", "customer_name", "industry", "account"] ++ MONTH_COLUMNS,
   [[Cell.int 2024, Cell.int 13, Cell.str "S", Cell.str "D", Cell.str "101",
     Cell.str "N", Cell.str "C", Cell.str "CN", Cell.str "I", Cell.str "売上高",
     Cell.int 101, Cell.int 102, Cell.int 103, Cell.int 104, Cell.int 105, Cell.int 106,
     Cell.int 107, Cell.int 108, Cell.int 109, Cell.int 110, Cell.int 111, Cell.int 112]]⟩

/-- C5 counterexample: this input contains the non-missing month value 13,
yet it is classified wide, the transform overwrites the month column with the
label-derived months 1..12, validation succeeds, and the import loads 12
rows — the out-of-range month is not rejected. -/
theorem C5_counterexample :
    cellOf exC5wide.cols (exC5wide.rows.getD 0 []) "month" = Cell.int 13 ∧
    detect_format exC5wide = "wide" ∧
    (validate_frame exC5wide).1 = true ∧
    (importCSV exC5wide "append" []).1 = (true, 12, []) ∧
    ((importCSV exC5wide "append" []).2).length = 12 := by
  refine ⟨by decide, by decide, by decide, by decide, by decide⟩

/-- C5 (amended): whenever the frame actually validated — the prepared frame
after wide-to-long transformation or normalization — contains a non-missing
month value outside [1,12] after coercion, validation fails and the import
loads zero rows, leaving the table untouched.  For long-native inputs this
covers the raw month values; in a wide-classified input a pre-existing month
column is overwritten by the transform, so out-of-range values there are
silently replaced rather than rejected. -/
theorem C5_month_range_rejected (df0 df1 : Frame) (mode : String)
    (table : List TransactionRecord)
    (hprep : prepared df0 = Except.ok df1)
    (hbad : ∃ m ∈ monthValues (coerceYMA df1), m < 1 ∨ 12 < m) :
    (validate_frame df0).1 = false ∧
    importCSV df0 mode table = ((false, 0, (validate_frame df0).2.2), table) := by
  have hany : ((monthValues (coerceYMA df1)).any fun m => decide (m < 1) || decide (12 < m)) = true := by
    obtain ⟨m, hm, hout⟩ := hbad
    refine List.any_eq_true.mpr ⟨m, hm, ?_⟩
    rcases hout with h | h <;> simp [h]
  by_cases hmiss : missingCols df1 = []
  · have hne := validationErrors_ne_nil_of_month df1 hany
    have hv := validate_frame_errs df0 df1 hprep hmiss hne
    refine ⟨by rw [hv], ?_⟩
    rw [hv]
    exact importCSV_of_invalid df0 (coerceYMA df1) mode table _ hv
  · have hv : validate_frame df0
        = (false, df1, ["必須カラムがありません: " ++ joinComma (missingCols df1)]) := by
      unfold validate_frame
      rw [hprep]
      simp only
      rw [if_pos (by simpa using hmiss)]
    refine ⟨by rw [hv], ?_⟩
    rw [hv]
    exact importCSV_of_invalid df0 df1 mode table _ hv

/-- A long-layout CSV whose single row has month 13. -/
def exC5long : Frame :=
  ⟨REQUIRED_COLUMNS_LONG,
   [[Cell.int 2024, Cell.int 13, Cell.str "S", Cell.str "D", Cell.str "101",
     Cell.str "N", Cell.str "C", Cell.str "CN", Cell.str "I", Cell.str "売上高",
     Cell.int 100]]⟩

/-- C5 witness: the amended theorem applied to a long CSV with month 13. -/
theorem C5_witness :
    (validate_frame exC5long).1 = false ∧
    importCSV exC5long "replace" [priorRec]
      = ((false, 0, (validate_frame exC5long).2.2), [priorRec]) :=
  C5_month_range_rejected exC5long (normalize_columns exC5long) "replace" [priorRec]
    (by decide) ⟨13, by decide, by decide⟩

theorem mem_infix_joinComma (l : List String) (c : String) (h : c ∈ l) :
    c.data <:+: (joinComma l).data := by
  induction l with
  | nil => simp at h
  | cons x xs ih =>
    cases xs with
    | nil =>
      have : c = x := by simpa using h
      subst this
      exact List.infix_refl c.data
    | cons y rest =>
      rcases List.mem_cons.mp h with rfl | hmem
      · show c.data <:+: (c ++ ", " ++ joinComma (y :: rest)).data
        rw [String.data_append, String.data_append]
        exact ((List.prefix_append c.data _).trans (List.prefix_append _ _)).isInfix
      · have h1 := ih hmem
        show c.data <:+: (x ++ ", " ++ joinComma (y :: rest)).data
        rw [String.data_append]
        exact h1.trans (List.suffix_append _ _).isInfix

/-- C6: for every input classified as long that, after normalization, is
missing at least one required canonical column, validation fails, the error
list is exactly the missing-columns message, every absent required column is
in the reported list, and each missing column name occurs verbatim inside
the message. -/
theorem C6_missing_columns_reported (df0 : Frame)
    (hfmt : detect_format df0 = "long")
    (hmiss : missingCols (normalize_columns df0) ≠ []) :
    (validate_frame df0).1 = false ∧
    (validate_frame df0).2.2
      = ["必須カラムがありません: " ++ joinComma (missingCols (normalize_columns df0))] ∧
    (∀ c ∈ REQUIRED_COLUMNS_LONG, memStr (normalize_columns df0).cols c = false →
      c ∈ missingCols (normalize_columns df0)) ∧
    ∀ c ∈ missingCols (normalize_columns df0),
      c.data <:+: ("必須カラムがありません: "
        ++ joinComma (missingCols (normalize_columns df0))).data := by
  have hprep : prepared df0 = Except.ok (normalize_columns df0) := by
    unfold prepared
    rw [if_neg (by rw [hfmt]; decide)]
  have hv : validate_frame df0
      = (false, normalize_columns df0,
         ["必須カラムがありません: " ++ joinComma (missingCols (normalize_columns df0))]) := by
    unfold validate_frame
    rw [hprep]
    simp only
    rw [if_pos (by simpa using hmiss)]
  refine ⟨by rw [hv], by rw [hv], ?_, ?_⟩
  · intro c hc hmem
    unfold missingCols
    rw [List.mem_filter]
    exact ⟨hc, by simp [hmem]⟩
  · intro c hc
    have h1 := mem_infix_joinComma (missingCols (normalize_columns df0)) c hc
    rw [String.data_append]
    exact h1.trans (List.suffix_append _ _).isInfix

/-- A long CSV missing the division and amount columns. -/
def exC6 : Frame :=
  ⟨["year", "month", "segment", "dept_code", "dept_name",
    "customer_code", "customer_name", "industry", "account"], []⟩

/-- C6 witness: the theorem applied to a CSV missing division and amount. -/
theorem C6_witness :
    (validate_frame exC6).1 = false ∧
    (validate_frame exC6).2.2
      = ["必須カラムがありません: " ++ joinComma (missingCols (normalize_columns exC6))] ∧
    (∀ c ∈ REQUIRED_COLUMNS_LONG, memStr (normalize_columns exC6).cols c = false →
      c ∈ missingCols (normalize_columns exC6)) ∧
    ∀ c ∈ missingCols (normalize_columns exC6),
      c.data <:+: ("必須カラムがありません: "
        ++ joinComma (missingCols (normalize_columns exC6))).data :=
  C6_missing_columns_reported exC6 (by decide) (by decide)

theorem cell_is_int (cols : List String) (r : List Cell) (c : String)
    (h1 : isIntOrNa (cellOf cols r c) = true) (h2 : isNaAt cols r c = false) :
    ∃ n, cellOf cols r c = Cell.int n := by
  cases hcell : cellOf cols r c with
  | na => rw [isNaAt, hcell] at h2; exact Bool.noConfusion h2
  | int n => exact ⟨n, rfl⟩
  | str s => rw [hcell] at h1; exact Bool.noConfusion h1

/-- C2 counterexample: a CSV that validates with zero importable rows, run in
replace mode against a one-row table, leaves one row in storage instead of
zero — "exactly N rows regardless of prior count" fails at N = 0 because the
empty-batch check precedes the replace-mode delete. -/
theorem C2_counterexample :
    (validate_frame emptyLongFrame).1 = true ∧
    (dropnaYMA (validate_frame emptyLongFrame).2.1).rows.length = 0 ∧
    (importCSV emptyLongFrame "replace" [priorRec]).2 = [priorRec] := by
  refine ⟨by decide, by decide, by decide⟩

/-- C2 (amended): for every well-formed prior table state and every CSV that
validates with N ≥ 1 importable rows, import in replace mode succeeds,
reports N inserted rows, and leaves exactly N rows in storage, regardless of
the prior row count. -/
theorem C2_replace_exact_rows (df0 df : Frame) (table : List TransactionRecord)
    (hWF : df0.WF)
    (hval : validate_frame df0 = (true, df, []))
    (hne : (dropnaYMA df).rows ≠ []) :
    (importCSV df0 "replace" table).1.1 = true ∧
    (importCSV df0 "replace" table).1.2.1 = (dropnaYMA df).rows.length ∧
    ((importCSV df0 "replace" table).2).length = (dropnaYMA df).rows.length := by
  obtain ⟨df1, hprep, hmiss, hdfeq, hinv⟩ := validate_true_elim df0 df hval
  have hWF1 : df1.WF := prepared_WF df0 df1 hWF hprep
  obtain ⟨hcWF, hcells⟩ := coerceYMA_spec df1 hWF1
  have hall : ∀ r ∈ (dropnaYMA df).rows, (rowToRecord (dropnaYMA df).cols r).isSome = true := by
    intro r hr
    subst hdfeq
    simp only [dropnaYMA, List.mem_filter] at hr
    obtain ⟨hrmem, hcond⟩ := hr
    obtain ⟨hy, hm, ha⟩ := hcells r hrmem
    simp only [Bool.not_or, Bool.and_eq_true, Bool.not_eq_true'] at hcond
    obtain ⟨⟨hny, hnm⟩, hna⟩ := hcond
    obtain ⟨ny, hcy⟩ := cell_is_int _ r "year" hy hny
    obtain ⟨nm, hcm⟩ := cell_is_int _ r "month" hm hnm
    obtain ⟨na2, hca⟩ := cell_is_int _ r "amount" ha hna
    simp [rowToRecord, dropnaYMA, hcy, hcm, hca, toPyInt]
  have hie : (dropnaYMA df).rows.isEmpty = false := by
    cases hrs : (dropnaYMA df).rows with
    | nil => exact absurd hrs hne
    | cons a l => rfl
  have hins := insertRows_all_some (dropnaYMA df).cols (dropnaYMA df).rows 0 hall
  unfold importCSV
  rw [hval]
  simp only [Bool.not_true, Bool.false_eq_true, if_false, hie]
  simp [hins.1, hins.2.1, hins.2.2]

/-- A one-valid-row long CSV for the C2 witness. -/
def exC2 : Frame :=
  ⟨REQUIRED_COLUMNS_LONG,
   [[Cell.int 2025, Cell.int 7, Cell.str "S2", Cell.str "D2", Cell.str "202",
     Cell.str "N2", Cell.str "C2", Cell.str "CN2", Cell.str "I2", Cell.str "売上原価",
     Cell.int 55]]⟩

/-- C2 witness: the amended theorem applied to a one-row CSV replacing a
one-row table. -/
theorem C2_witness :
    (importCSV exC2 "replace" [priorRec]).1.1 = true ∧
    (importCSV exC2 "replace" [priorRec]).1.2.1
      = (dropnaYMA (coerceYMA (normalize_columns exC2))).rows.length ∧
    ((importCSV exC2 "replace" [priorRec]).2).length
      = (dropnaYMA (coerceYMA (normalize_columns exC2))).rows.length :=
  C2_replace_exact_rows exC2 (coerceYMA (normalize_columns exC2)) [priorRec]
    (by decide) (by decide) (by decide)

/-- A non-missing, non-zero integer cell. -/
def isNonzeroInt (c : Cell) : Bool :=
  match c with
  | Cell.int n => if n = 0 then false else true
  | _ => false

theorem keepAmount_of_nonzeroInt (c : Cell) (h : isNonzeroInt c = true) :
    keepAmount c = true := by
  cases c with
  | na => exact Bool.noConfusion h
  | str s => exact Bool.noConfusion h
  | int n =>
    simp only [isNonzeroInt] at h
    split_ifs at h with h0
    simp [keepAmount, h0]

theorem memStr_filter_false (l : List String) (p : String → Bool) (c : String)
    (h : memStr l c = false) : memStr (l.filter p) c = false := by
  cases hm : memStr (l.filter p) c with
  | false => rfl
  | true =>
    have hc := (List.mem_filter.mp ((memStr_eq_mem _ _).mp hm)).1
    rw [(memStr_eq_mem l c).mpr hc] at h
    exact Bool.noConfusion h

theorem meltW_mem (df2 : Frame) (hmc : monthColsOf df2 = MONTH_COLUMNS)
    (rm : List Cell) (h : rm ∈ (meltW df2).rows) :
    ∃ v ∈ MONTH_COLUMNS, ∃ rsrc ∈ df2.rows,
      rm = (idVarsOf df2).map (fun c => cellOf df2.cols rsrc c)
        ++ [Cell.str v, cellOf df2.cols rsrc v] := by
  simp only [meltW, hmc, List.mem_flatMap, List.mem_map] at h
  obtain ⟨v, hv, rsrc, hrsrc, rfl⟩ := h
  exact ⟨v, hv, rsrc, hrsrc, rfl⟩

theorem meltW_amount_cell (df2 : Frame)
    (hida : memStr (idVarsOf df2) "amount" = false) (rsrc : List Cell) (v : String) :
    cellOf (meltW df2).cols
      ((idVarsOf df2).map (fun c => cellOf df2.cols rsrc c)
        ++ [Cell.str v, cellOf df2.cols rsrc v]) "amount"
      = cellOf df2.cols rsrc v := by
  have hidx : colIdx (meltW df2).cols "amount" = some (1 + (idVarsOf df2).length) := by
    show colIdx (idVarsOf df2 ++ ["month_name", "amount"]) "amount" = _
    rw [colIdx_append_right _ _ _ hida,
        show colIdx ["month_name", "amount"] "amount" = some 1 from by decide]
    rfl
  rw [cellOf_eq_getD _ _ _ _ hidx]
  have hlenA : ((idVarsOf df2).map (fun c => cellOf df2.cols rsrc c)).length
      = (idVarsOf df2).length := List.length_map _ _
  rw [List.getD_append_right _ _ _ _ (by rw [hlenA]; omega), hlenA,
      show 1 + (idVarsOf df2).length - (idVarsOf df2).length = 1 from by omega]
  rfl

theorem meltW_monthname_cell (df2 : Frame)
    (hidmn : memStr (idVarsOf df2) "month_name" = false) (rsrc : List Cell) (v : String) :
    cellOf (meltW df2).cols
      ((idVarsOf df2).map (fun c => cellOf df2.cols rsrc c)
        ++ [Cell.str v, cellOf df2.cols rsrc v]) "month_name"
      = Cell.str v := by
  have hidx : colIdx (meltW df2).cols "month_name" = some (0 + (idVarsOf df2).length) := by
    show colIdx (idVarsOf df2 ++ ["month_name", "amount"]) "month_name" = _
    rw [colIdx_append_right _ _ _ hidmn,
        show colIdx ["month_name", "amount"] "month_name" = some 0 from by decide]
    rfl
  rw [cellOf_eq_getD _ _ _ _ hidx]
  have hlenA : ((idVarsOf df2).map (fun c => cellOf df2.cols rsrc c)).length
      = (idVarsOf df2).length := List.length_map _ _
  rw [List.getD_append_right _ _ _ _ (by rw [hlenA]; omega), hlenA,
      show 0 + (idVarsOf df2).length - (idVarsOf df2).length = 0 from by omega]
  rfl

theorem month_map_mem (v : String) (hv : v ∈ MONTH_COLUMNS) :
    ∃ k, lookupMonth month_map v = some k ∧ 1 ≤ k ∧ k ≤ 12 := by
  have h := (by decide :
    ∀ v0 ∈ MONTH_COLUMNS,
      (match lookupMonth month_map v0 with
       | some k => decide (1 ≤ k) && decide (k ≤ 12)
       | none => false) = true) v hv
  cases hl : lookupMonth month_map v with
  | none => rw [hl] at h; exact Bool.noConfusion h
  | some k =>
    rw [hl] at h
    simp only [Bool.and_eq_true, decide_eq_true_eq] at h
    exact ⟨k, rfl, h.1, h.2⟩

/-- C3: for every wide-format frame whose normalized, ignore-columns-dropped
form carries exactly the 12 month-label columns, with a non-missing non-zero
integer in each of them on every row, and no clashing "amount" or
"month_name" column (on which pandas melt itself would fail), the transform
succeeds and yields exactly 12 output rows per input row; every output row
has an amount that is neither missing nor exactly zero (such unpivoted rows
are dropped), and a month number 1..12 assigned via the fixed month-label
dictionary. -/
theorem C3_wide_to_long_rows (df0 : Frame)
    (hmc : monthColsOf (dropColumns (normalize_columns df0) IGNORE_COLUMNS) = MONTH_COLUMNS)
    (hamount : memStr (dropColumns (normalize_columns df0) IGNORE_COLUMNS).cols "amount" = false)
    (hmn : memStr (dropColumns (normalize_columns df0) IGNORE_COLUMNS).cols "month_name" = false)
    (hvals : ∀ r ∈ (dropColumns (normalize_columns df0) IGNORE_COLUMNS).rows,
      ∀ m ∈ MONTH_COLUMNS,
        isNonzeroInt (cellOf (dropColumns (normalize_columns df0) IGNORE_COLUMNS).cols r m)
          = true) :
    ∃ out, transform_wide_to_long df0 = Except.ok out ∧
      out.rows.length = 12 * df0.rows.length ∧
      (∀ r ∈ out.rows, keepAmount (cellOf out.cols r "amount") = true) ∧
      (∀ r ∈ out.rows, ∃ k, cellOf out.cols r "month" = Cell.int k ∧ 1 ≤ k ∧ k ≤ 12 ∧
        ∃ lbl ∈ MONTH_COLUMNS, lookupMonth month_map lbl = some k) := by
  set df2 := dropColumns (normalize_columns df0) IGNORE_COLUMNS with hdf2
  have hok : transform_wide_to_long df0 = Except.ok (filteredW df2) := by
    unfold transform_wide_to_long
    rw [← hdf2, if_neg (by rw [hmc]; decide), if_neg (by rw [hamount]; decide)]
  have hida : memStr (idVarsOf df2) "amount" = false := memStr_filter_false _ _ _ hamount
  have hidmn : memStr (idVarsOf df2) "month_name" = false := memStr_filter_false _ _ _ hmn
  obtain ⟨hwmWF, hwmlen, hwmmem⟩ := mapSetCol_spec (meltW df2) "month"
    (fun r => mapMonth (cellOf (meltW df2).cols r "month_name")) (meltW_WF df2)
  obtain ⟨hdWF, hdlen, hdmem⟩ := dropColumns_spec
    (mapSetCol (meltW df2) "month" (fun r => mapMonth (cellOf (meltW df2).cols r "month_name")))
    ["month_name"] hwmWF
  have hkeep : ∀ rd ∈ (dropColumns (mapSetCol (meltW df2) "month"
        (fun r => mapMonth (cellOf (meltW df2).cols r "month_name"))) ["month_name"]).rows,
      keepAmount (cellOf (dropColumns (mapSetCol (meltW df2) "month"
        (fun r => mapMonth (cellOf (meltW df2).cols r "month_name"))) ["month_name"]).cols
        rd "amount") = true := by
    intro rd hrd
    obtain ⟨rw1, hrw1, hpres⟩ := hdmem rd hrd
    rw [hpres "amount" (by decide)]
    obtain ⟨rm, hrm, hself, hother⟩ := hwmmem rw1 hrw1
    rw [hother "amount" (by decide)]
    obtain ⟨v, hv, rsrc, hrsrc, rfl⟩ := meltW_mem df2 hmc rm hrm
    rw [meltW_amount_cell df2 hida rsrc v]
    exact keepAmount_of_nonzeroInt _ (hvals rsrc hrsrc v hv)
  have hmeltlen : (meltW df2).rows.length = 12 * df2.rows.length := by
    simp only [meltW, hmc, MONTH_COLUMNS, List.flatMap_cons, List.flatMap_nil,
      List.length_append, List.length_map, List.length_nil]
    omega
  have hdflen : df2.rows.length = df0.rows.length := by
    rw [hdf2]
    simp [dropColumns, normalize_columns]
  refine ⟨filteredW df2, hok, ?_, ?_, ?_⟩
  · show (filteredW df2).rows.length = 12 * df0.rows.length
    unfold filteredW droppedW withMonthW
    rw [List.filter_eq_self.mpr hkeep, hdlen, hwmlen, hmeltlen, hdflen]
  · intro r hr
    unfold filteredW droppedW withMonthW at hr ⊢
    exact List.filter_eq_self.mpr hkeep ▸ hkeep r (List.mem_filter.mp hr).1
  · intro rout hrout
    unfold filteredW droppedW withMonthW at hrout ⊢
    have hrout2 : rout ∈ (dropColumns (mapSetCol (meltW df2) "month"
        (fun r => mapMonth (cellOf (meltW df2).cols r "month_name"))) ["month_name"]).rows :=
      (List.mem_filter.mp hrout).1
    obtain ⟨rw1, hrw1, hpres⟩ := hdmem rout hrout2
    rw [hpres "month" (by decide)]
    obtain ⟨rm, hrm, hself, hother⟩ := hwmmem rw1 hrw1
    rw [hself]
    obtain ⟨v, hv, rsrc, hrsrc, rfl⟩ := meltW_mem df2 hmc rm hrm
    rw [meltW_monthname_cell df2 hidmn rsrc v]
    obtain ⟨k, hk, h1k, hk12⟩ := month_map_mem v hv
    refine ⟨k, ?_, h1k, hk12, v, hv, hk⟩
    simp [mapMonth, hk]

/-- A one-row wide frame: a year column plus all 12 month columns with
non-zero amounts. -/
def exC3 : Frame :=
  ⟨["year"] ++ MONTH_COLUMNS,
   [[Cell.int 2024,
     Cell.int 511926, Cell.int 598723, Cell.int 831515, Cell.int 593199,
     Cell.int 519499, Cell.int 546835, Cell.int 495901, Cell.int 617918,
     Cell.int 725707, Cell.int 721205, Cell.int 563740, Cell.int 866264]]⟩

/-- C3 witness: the theorem applied to the one-row all-months frame. -/
theorem C3_witness :
    ∃ out, transform_wide_to_long exC3 = Except.ok out ∧
      out.rows.length = 12 * exC3.rows.length ∧
      (∀ r ∈ out.rows, keepAmount (cellOf out.cols r "amount") = true) ∧
      (∀ r ∈ out.rows, ∃ k, cellOf out.cols r "month" = Cell.int k ∧ 1 ≤ k ∧ k ≤ 12 ∧
        ∃ lbl ∈ MONTH_COLUMNS, lookupMonth month_map lbl = some k) :=
  C3_wide_to_long_rows exC3 (by decide) (by decide) (by decide) (by decide)

/-- A stored transaction used to observe whether an accessor queries the
table. -/
def exRec10 : TransactionRecord :=
  { year := 2024, month := 3, segment := "S", division := "A", dept_code := "D1",
    dept_name := "X", customer_code := "C1", customer_name := "CN", industry := "I",
    account := "売上高", amount := 5 }

/-- C10 counterexample: get_dept_profit_summary_by_division takes a list of
years and a list of department codes, yet calling it with the empty
dept_codes list (and a non-empty years list) runs the unfiltered query: on a
one-row table it returns a one-row frame instead of the empty frame, and its
result depends on the stored table — a query is issued. -/
theorem C10_counterexample :
    get_dept_profit_summary_by_division [2024] "A" (some []) [exRec10]
      = ⟨["dept_code", "dept_name", "sales", "cost", "profit"],
         [[Cell.str "D1", Cell.str "X", Cell.int 5, Cell.int 0, Cell.int 5]]⟩ ∧
    (get_dept_profit_summary_by_division [2024] "A" (some []) []).rows = [] := by
  refine ⟨by decide, by decide⟩

/-- C10 (amended): get_monthly_data, get_segment_summary and
get_dept_monthly_data return the empty frame with their documented columns,
for every table state (hence without consulting storage), whenever any of
their list filters is empty; get_dept_profit_summary_by_division does so
only for an empty years list — an empty dept_codes list is treated like
None, dropping the department filter instead. -/
theorem C10_empty_filters_no_query :
    (∀ (years : List Int) (divisions : List String) (account : String)
        (tbl : List TransactionRecord),
      years = [] ∨ divisions = [] →
      get_monthly_data years divisions account tbl = ⟨["year", "month", "total"], []⟩) ∧
    (∀ (years : List Int) (account : String) (tbl : List TransactionRecord),
      years = [] → get_segment_summary years account tbl = ⟨["segment", "total"], []⟩) ∧
    (∀ (years : List Int) (division : String) (dept_codes : List String)
        (account : String) (tbl : List TransactionRecord),
      years = [] ∨ dept_codes = [] →
      get_dept_monthly_data years division dept_codes account tbl
        = ⟨["year", "month", "dept_code", "dept_name", "total"], []⟩) ∧
    (∀ (years : List Int) (division : String) (dept_codes : Option (List String))
        (tbl : List TransactionRecord),
      years = [] →
      get_dept_profit_summary_by_division years division dept_codes tbl
        = ⟨["dept_code", "dept_name", "sales", "cost", "profit"], []⟩) := by
  refine ⟨?_, ?_, ?_, ?_⟩
  · intro years divisions account tbl h
    rcases h with rfl | rfl <;> simp [get_monthly_data]
  · intro years account tbl h
    subst h
    simp [get_segment_summary]
  · intro years division dept_codes account tbl h
    rcases h with rfl | rfl <;> simp [get_dept_monthly_data]
  · intro years division dept_codes tbl h
    subst h
    simp [get_dept_profit_summary_by_division]

/-- C10 witness: the empty-years guard of get_monthly_data on a non-empty
table. -/
theorem C10_witness :
    get_monthly_data [] ["A"] "売上高" [exRec10] = ⟨["year", "month", "total"], []⟩ :=
  C10_empty_filters_no_query.1 [] ["A"] "売上高" [exRec10] (Or.inl rfl)
